import Mathlib

/-!
Shallow embedding of `send-mqtt.js`: a CI publisher that reads configuration
from the process environment, then drives a bounded retry loop around a single
connect/publish/disconnect attempt (`publishOnce`), reporting the outcome via
the process exit code.

The embedding has two layers, mirroring the source:

* the orchestrator: environment snapshot, JS-truthiness-based configuration
  parsing (`Number(env || default)`), and the `for` retry loop of the async
  IIFE, producing a trace of attempt ordinals, requested backoff delays, and
  the process exit code;
* the single attempt `publishOnce`: an event-driven state machine over the
  `connect` / `error` events, the `setTimeout` timer, the publish
  acknowledgement callback and the `client.end` close callback, with the
  promise's one-shot settlement made explicit.

JS numbers reaching the retry loop come from `Number(...)` applied to
environment strings; they are modelled as `JSNum` (NaN or a rational).  The
string-to-number conversion performed by the JS runtime is kept abstract as a
parameter `conv : String → JSNum`; the network outcome of each attempt is kept
abstract as `results : Nat → Bool`.
-/

namespace SendMqtt

/-- A JavaScript number as it occurs in this program: `NaN` or a finite value.
(The configuration values are produced by `Number` on environment strings.) -/
inductive JSNum where
  | nan : JSNum
  | num : ℚ → JSNum
deriving DecidableEq, Repr

/-- JS comparison `a <= m` between the loop counter (a nonnegative integer)
and a JS number; any comparison with `NaN` is false. -/
def jsLeNat (a : Nat) (m : JSNum) : Bool :=
  match m with
  | JSNum.nan => false
  | JSNum.num q => decide ((a : ℚ) ≤ q)

/-- JS comparison `a < m`; any comparison with `NaN` is false. -/
def jsLtNat (a : Nat) (m : JSNum) : Bool :=
  match m with
  | JSNum.nan => false
  | JSNum.num q => decide ((a : ℚ) < q)

/-- JS multiplication; `NaN` propagates. -/
def jsMul (a b : JSNum) : JSNum :=
  match a, b with
  | JSNum.num x, JSNum.num y => JSNum.num (x * y)
  | _, _ => JSNum.nan

/-- JS addition; `NaN` propagates. -/
def jsAdd (a b : JSNum) : JSNum :=
  match a, b with
  | JSNum.num x, JSNum.num y => JSNum.num (x + y)
  | _, _ => JSNum.nan

/-- The process environment: each variable read by the script, as an optional
string (`none` = variable absent, `some s` = variable present with value `s`,
possibly empty). -/
structure Env where
  MQTT_HOST : Option String
  MQTT_PATH : Option String
  RELEASE_TAG : Option String
  MQTT_USER : Option String
  MQTT_PASSWORD : Option String
  MQTT_ATTEMPTS : Option String
  MQTT_RETRY_DELAY_MS : Option String
  MQTT_CONNECT_TIMEOUT_MS : Option String
  CF_ACCESS_CLIENT_ID : Option String
  CF_ACCESS_CLIENT_SECRET : Option String
deriving DecidableEq, Repr

/-- JS truthiness of an environment value: an absent variable
(`undefined`) and the empty string are falsy, every other string is truthy. -/
def truthy (v : Option String) : Bool :=
  match v with
  | none => false
  | some s => s ≠ ""

/-- `Number(v || d)` for an environment value `v` and numeric default `d`:
if `v` is truthy, the JS runtime converts the string with `Number`
(abstracted as `conv`); otherwise `Number` of the default, which is the
default itself. -/
def numFromEnv (conv : String → JSNum) (v : Option String) (d : ℚ) : JSNum :=
  if truthy v then conv (v.getD "") else JSNum.num d

/-- `const maxAttempts = Number(process.env.MQTT_ATTEMPTS || 4)`. -/
def maxAttemptsOf (env : Env) (conv : String → JSNum) : JSNum :=
  numFromEnv conv env.MQTT_ATTEMPTS 4

/-- `const baseDelayMs = Number(process.env.MQTT_RETRY_DELAY_MS || 3000)`. -/
def baseDelayMsOf (env : Env) (conv : String → JSNum) : JSNum :=
  numFromEnv conv env.MQTT_RETRY_DELAY_MS 3000

/-- `const connectTimeout = Number(process.env.MQTT_CONNECT_TIMEOUT_MS || 15000)`. -/
def connectTimeoutOf (env : Env) (conv : String → JSNum) : JSNum :=
  numFromEnv conv env.MQTT_CONNECT_TIMEOUT_MS 15000

/-- `const PAYLOAD = process.env.RELEASE_TAG || 'ci-test'`. -/
def payloadOf (env : Env) : String :=
  if truthy env.RELEASE_TAG then env.RELEASE_TAG.getD "" else "ci-test"

/-- The WebSocket transport headers built by `publishOnce`: the two fixed
headers always, and the CF Access pair exactly when
`process.env.CF_ACCESS_CLIENT_ID && process.env.CF_ACCESS_CLIENT_SECRET`
is truthy, i.e. when both variables are truthy. -/
def wsHeaders (env : Env) : List (String × String) :=
  [("sec-websocket-protocol", "mqtt"),
   ("User-Agent", "github-selfhosted-mqtt-publisher/1.0")] ++
  (if truthy env.CF_ACCESS_CLIENT_ID && truthy env.CF_ACCESS_CLIENT_SECRET then
    [("CF-Access-Client-Id", (env.CF_ACCESS_CLIENT_ID).getD ""),
     ("CF-Access-Client-Secret", (env.CF_ACCESS_CLIENT_SECRET).getD "")]
  else [])

/-- Whether a header with the given name is attached to the transport request. -/
def headerAttached (env : Env) (name : String) : Bool :=
  (wsHeaders env).any (fun p => p.1 = name)

/-- The `setTimeout` delay guarding one attempt: `connectTimeout + 5000` ms. -/
def timerDelayMs (connectTimeout : JSNum) : JSNum :=
  jsAdd connectTimeout (JSNum.num 5000)

/-- `baseDelayMs * Math.pow(2, attempt - 1)`: the backoff requested after the
failure of attempt `attempt` when a further attempt remains. -/
def backoff (base : JSNum) (attempt : Nat) : JSNum :=
  jsMul base (JSNum.num (2 ^ (attempt - 1)))

/-- Trace of one run of the retry loop of the async IIFE. -/
structure LoopTrace where
  /-- Ordinals of the attempts started, in order (each started attempt calls
  `publishOnce`, which calls `mqtt.connect` once). -/
  attempts : List Nat
  /-- The backoff delays passed to `sleep`, in order. -/
  delays : List JSNum
  /-- The process exit code. -/
  exit : Nat
  /-- `true` when `process.exit` was called, `false` when the loop fell
  through and the process exited naturally (with code 0). -/
  exitedExplicitly : Bool
deriving DecidableEq, Repr

/-- The body of `for (let attempt = 1; attempt <= maxAttempts; attempt++)`,
with explicit fuel (the JS loop counter is unbounded; `fuelFor` below always
supplies enough fuel).  `results k` tells whether the `k`-th call of
`publishOnce` resolves (`true`) or rejects (`false`). -/
def loopGo (m base : JSNum) (results : Nat → Bool) : Nat → Nat → Option LoopTrace
  | 0, _ => none
  | fuel + 1, attempt =>
    if jsLeNat attempt m then
      if results attempt then
        some ⟨[attempt], [], 0, true⟩
      else
        if jsLtNat attempt m then
          match loopGo m base results fuel (attempt + 1) with
          | none => none
          | some t =>
            some ⟨attempt :: t.attempts, backoff base attempt :: t.delays,
                  t.exit, t.exitedExplicitly⟩
        else
          some ⟨[attempt], [], 1, true⟩
    else
      some ⟨[], [], 0, false⟩

/-- Fuel sufficient for the retry loop: the loop recurses only while the
counter is below `m`, so any bound above `m` works; `q.num.toNat + 2`
is such a bound for `m = num q`. -/
def fuelFor (m : JSNum) : Nat :=
  match m with
  | JSNum.nan => 1
  | JSNum.num q => q.num.toNat + 2

/-- The retry loop, started at attempt 1 with sufficient fuel. -/
def runLoop (m base : JSNum) (results : Nat → Bool) : Option LoopTrace :=
  loopGo m base results (fuelFor m) 1

/-- Trace of a whole run of the script. -/
structure ProgTrace where
  /-- Number of calls to `mqtt.connect` (one per started attempt). -/
  connects : Nat
  /-- Ordinals of attempts started, in order. -/
  attempts : List Nat
  /-- Backoff delays requested, in order. -/
  delays : List JSNum
  /-- The process exit code. -/
  exit : Nat
  /-- Whether `process.exit` was called. -/
  exitedExplicitly : Bool
deriving DecidableEq, Repr

/-- The whole script: the `MQTT_HOST` guard (`if (!TARGET) process.exit(2)`)
followed by the retry loop. -/
def sendMqtt (env : Env) (conv : String → JSNum) (results : Nat → Bool) :
    Option ProgTrace :=
  if truthy env.MQTT_HOST then
    (runLoop (maxAttemptsOf env conv) (baseDelayMsOf env conv) results).map
      (fun t => ⟨t.attempts.length, t.attempts, t.delays, t.exit, t.exitedExplicitly⟩)
  else
    some ⟨0, [], [], 2, true⟩

/-! ### The single attempt: `publishOnce` as an event-driven state machine -/

/-- A call to `resolve` or `reject` of the attempt's promise, tagged with the
path that made it. -/
inductive SettleResult where
  | timeoutErr : SettleResult
  | transportErr : SettleResult
  | publishErr : SettleResult
  | ok : SettleResult
deriving DecidableEq, Repr

/-- A `client.publish` call: topic (possibly `undefined`), payload, QoS. -/
structure PubRecord where
  topic : Option String
  payload : String
  qos : Nat
deriving DecidableEq, Repr

/-- The configuration an attempt publishes with. -/
structure AttemptCfg where
  topic : Option String
  payload : String
deriving DecidableEq, Repr

/-- The mutable state of one `publishOnce` invocation. -/
structure AttemptState where
  /-- The `timedOut` flag. -/
  timedOut : Bool
  /-- Whether the `setTimeout` timer is still pending (not cleared, not fired). -/
  timerActive : Bool
  /-- Whether a `client.publish` callback is outstanding. -/
  pubPending : Bool
  /-- Whether `client.end(true, cb)` was called and its close callback is
  outstanding. -/
  closeResolvePending : Bool
  /-- Whether `client.end` has been invoked. -/
  endCalled : Bool
  /-- The `client.publish` calls made, in order. -/
  pubs : List PubRecord
  /-- The promise's value: one-shot, set by the first `resolve`/`reject`. -/
  settled : Option SettleResult
  /-- Every call to `resolve`/`reject`, in order (later ones are ignored by
  the promise). -/
  settleAttempts : List SettleResult
deriving DecidableEq, Repr

/-- The state at entry of `publishOnce`: timer armed, nothing settled. -/
def initAttempt : AttemptState :=
  ⟨false, true, false, false, false, [], none, []⟩

/-- A call to `resolve`/`reject`: recorded always, but the promise value is
set only if the promise is still pending. -/
def settle (s : AttemptState) (r : SettleResult) : AttemptState :=
  { s with
    settled := match s.settled with | none => some r | some v => some v
    settleAttempts := s.settleAttempts ++ [r] }

/-- An asynchronous event delivered to one `publishOnce` invocation. -/
inductive AttemptEvent where
  /-- The `setTimeout` timer fires (only possible while it is pending). -/
  | timerFire : AttemptEvent
  /-- The client emits `connect`. -/
  | connectEv : AttemptEvent
  /-- The client emits `error`. -/
  | errorEv : AttemptEvent
  /-- The publish callback runs, with `isErr` telling whether it received an
  acknowledgement error (only possible while a publish is outstanding). -/
  | pubAck (isErr : Bool) : AttemptEvent
  /-- The close callback of `client.end(true, cb)` runs (only possible while
  it is outstanding). -/
  | closeDone : AttemptEvent
deriving DecidableEq, Repr

/-- One event handler of `publishOnce`, transcribed from the source:

* timer: sets `timedOut`, calls `client.end(true)`, rejects with the
  connect-timeout error;
* `connect`: returns early if `timedOut`, otherwise clears the timer and
  calls `client.publish(TOPIC, PAYLOAD, \x7b qos: 1 \x7d, cb)`;
* `error`: returns early if `timedOut`, otherwise clears the timer, calls
  `client.end(true)` and rejects;
* publish callback: on error, `client.end(true)` and reject; on success,
  `client.end(true, () => resolve(...))` — the resolve is deferred to the
  close callback;
* close callback: resolves the promise. -/
def step (cfg : AttemptCfg) (s : AttemptState) (e : AttemptEvent) : AttemptState :=
  match e with
  | AttemptEvent.timerFire =>
    if s.timerActive then
      settle { s with timerActive := false, timedOut := true, endCalled := true }
        SettleResult.timeoutErr
    else s
  | AttemptEvent.connectEv =>
    if s.timedOut then s
    else
      { s with
        timerActive := false
        pubPending := true
        pubs := s.pubs ++ [⟨cfg.topic, cfg.payload, 1⟩] }
  | AttemptEvent.errorEv =>
    if s.timedOut then s
    else
      settle { s with timerActive := false, endCalled := true }
        SettleResult.transportErr
  | AttemptEvent.pubAck isErr =>
    if s.pubPending then
      if isErr then
        settle { s with pubPending := false, endCalled := true }
          SettleResult.publishErr
      else
        { s with pubPending := false, endCalled := true, closeResolvePending := true }
    else s
  | AttemptEvent.closeDone =>
    if s.closeResolvePending then
      settle { s with closeResolvePending := false } SettleResult.ok
    else s

/-- Run one `publishOnce` invocation on a sequence of asynchronous events. -/
def runAttempt (cfg : AttemptCfg) (evs : List AttemptEvent) : AttemptState :=
  evs.foldl (step cfg) initAttempt

/-- Invariant of the `publishOnce` machine, maintained by every event. -/
def AttemptInvariant (cfg : AttemptCfg) (s : AttemptState) : Prop :=
  s.settled = s.settleAttempts.head? ∧
  (SettleResult.timeoutErr ∈ s.settleAttempts → s.timedOut = true) ∧
  (s.timedOut = true → s.timerActive = false) ∧
  (SettleResult.timeoutErr ∈ s.settleAttempts → s.timerActive = false) ∧
  (s.timedOut = true → SettleResult.transportErr ∉ s.settleAttempts) ∧
  (SettleResult.transportErr ∈ s.settleAttempts → s.timerActive = false) ∧
  s.settleAttempts.count SettleResult.timeoutErr ≤ 1 ∧
  (s.settleAttempts ≠ [] → s.endCalled = true) ∧
  (s.closeResolvePending = true → s.endCalled = true) ∧
  (∀ p ∈ s.pubs, p = ⟨cfg.topic, cfg.payload, 1⟩)

/-! ### Concrete instances used to witness the theorems -/

/-- An environment with only `MQTT_HOST` set. -/
def envHostOnly : Env :=
  ⟨some "wss://broker.example/mqtt", none, none, none, none, none, none, none, none, none⟩

/-- An environment with `MQTT_HOST` present but empty (set to `""`). -/
def envHostEmpty : Env :=
  ⟨some "", none, none, none, none, none, none, none, none, none⟩

/-- An environment with no variable set at all. -/
def envAllAbsent : Env :=
  ⟨none, none, none, none, none, none, none, none, none, none⟩

/-- An environment with `MQTT_HOST` set and `MQTT_ATTEMPTS` set to `"0"`. -/
def envAttemptsZero : Env :=
  ⟨some "wss://broker.example/mqtt", none, none, none, none, some "0", none, none, none, none⟩

/-- An environment where `CF_ACCESS_CLIENT_ID` is present but empty while
`CF_ACCESS_CLIENT_SECRET` is present and non-empty. -/
def envCfIdEmpty : Env :=
  ⟨some "wss://broker.example/mqtt", none, none, none, none, none, none, none,
   some "", some "secret-value"⟩

/-- A string-to-number conversion that maps every string to `NaN`
(irrelevant for runs whose numeric variables are all absent). -/
def convNan : String → JSNum := fun _ => JSNum.nan

/-- A string-to-number conversion that maps every string to `0`. -/
def convZero : String → JSNum := fun _ => JSNum.num 0

/-- Attempt outcomes where every `publishOnce` call rejects. -/
def allFail : Nat → Bool := fun _ => false

/-- Attempt outcomes where exactly the second `publishOnce` call resolves. -/
def succAtTwo : Nat → Bool := fun k => k == 2

/-- A state in the middle of an attempt: publish outstanding, nothing settled. -/
def statePubPending : AttemptState :=
  ⟨false, false, true, false, false, [⟨some "topic", "payload", 1⟩], none, []⟩

/-- A state after a successful publish acknowledgement: close callback
outstanding, nothing settled. -/
def stateClosePending : AttemptState :=
  ⟨false, false, false, true, true, [⟨some "topic", "payload", 1⟩], none, []⟩

/-- The attempt configuration used by concrete witnesses. -/
def cfgW : AttemptCfg := ⟨some "topic", "payload"⟩

/-! ### Lemmas about the retry loop -/

theorem jsLeNat_num_true {a N : ℕ} (h : a ≤ N) : jsLeNat a (JSNum.num N) = true := by
  simp only [jsLeNat, decide_eq_true_eq]
  exact_mod_cast h

theorem jsLeNat_num_false {a N : ℕ} (h : N < a) : jsLeNat a (JSNum.num N) = false := by
  simp only [jsLeNat, decide_eq_false_iff_not, not_le]
  exact_mod_cast h

theorem jsLtNat_num_true {a N : ℕ} (h : a < N) : jsLtNat a (JSNum.num N) = true := by
  simp only [jsLtNat, decide_eq_true_eq]
  exact_mod_cast h

theorem jsLtNat_num_false {a N : ℕ} (h : N ≤ a) : jsLtNat a (JSNum.num N) = false := by
  simp only [jsLtNat, decide_eq_false_iff_not, not_lt]
  exact_mod_cast h

/-- In a run where every attempt fails, the loop started at `attempt ≤ N`
performs attempts `attempt, …, N`, requests a backoff after each failure but
the last, and exits explicitly with code 1. -/
theorem loopGo_all_fail (N : ℕ) (base : JSNum) (results : Nat → Bool)
    (hres : ∀ k, results k = false) :
    ∀ fuel attempt, 1 ≤ attempt → attempt ≤ N → N + 1 - attempt ≤ fuel →
    loopGo (JSNum.num N) base results fuel attempt =
      some ⟨List.range' attempt (N + 1 - attempt),
            (List.range' attempt (N - attempt)).map (backoff base), 1, true⟩ := by
  intro fuel
  induction fuel with
  | zero => intro attempt h1 h2 h3; omega
  | succ fuel ih =>
    intro attempt h1 h2 h3
    by_cases hlt : attempt < N
    · rw [loopGo, jsLeNat_num_true h2, hres attempt, jsLtNat_num_true hlt,
        ih (attempt + 1) (by omega) (by omega) (by omega)]
      simp only
      have e1 : N + 1 - attempt = (N - attempt) + 1 := by omega
      have e2 : N + 1 - (attempt + 1) = N - attempt := by omega
      have e3 : N - attempt = (N - (attempt + 1)) + 1 := by omega
      rw [e1, List.range'_succ, e2]
      rw [show (N - attempt) = (N - (attempt + 1)) + 1 from e3, List.range'_succ]
      rw [List.range'_succ]
      simp [backoff]
    · have heq : attempt = N := by omega
      subst heq
      rw [loopGo, jsLeNat_num_true h2, hres attempt, jsLtNat_num_false (le_refl attempt)]
      simp only
      have e1 : attempt + 1 - attempt = 1 := by omega
      have e2 : attempt - attempt = 0 := by omega
      rw [e1, e2]
      simp

/-- In a run where the first success is at attempt `s ≤ N`, the loop started
at `attempt ≤ s` performs attempts `attempt, …, s`, requests a backoff after
each failure, and exits explicitly with code 0 as soon as attempt `s`
resolves. -/
theorem loopGo_first_success (N s : ℕ) (base : JSNum) (results : Nat → Bool)
    (hs : results s = true) (hfail : ∀ k, k < s → results k = false) (hsN : s ≤ N) :
    ∀ fuel attempt, 1 ≤ attempt → attempt ≤ s → N + 1 - attempt ≤ fuel →
    loopGo (JSNum.num N) base results fuel attempt =
      some ⟨List.range' attempt (s + 1 - attempt),
            (List.range' attempt (s - attempt)).map (backoff base), 0, true⟩ := by
  intro fuel
  induction fuel with
  | zero => intro attempt h1 h2 h3; omega
  | succ fuel ih =>
    intro attempt h1 h2 h3
    by_cases hlt : attempt < s
    · rw [loopGo, jsLeNat_num_true (by omega), hfail attempt hlt,
        jsLtNat_num_true (by omega),
        ih (attempt + 1) (by omega) (by omega) (by omega)]
      simp only
      have e1 : s + 1 - attempt = (s - attempt) + 1 := by omega
      have e2 : s + 1 - (attempt + 1) = s - attempt := by omega
      rw [e1, List.range'_succ, e2]
      rw [show (s - attempt) = (s - (attempt + 1)) + 1 from by omega, List.range'_succ]
      rw [List.range'_succ]
      simp [backoff]
    · have heq : attempt = s := by omega
      subst heq
      rw [loopGo, jsLeNat_num_true (by omega), hs]
      simp only
      have e1 : attempt + 1 - attempt = 1 := by omega
      have e2 : attempt - attempt = 0 := by omega
      rw [e1, e2]
      simp

/-- The retry loop itself never produces exit code 2: its exits are 0
(success or natural fall-through) and 1 (exhaustion). -/
theorem loopGo_exit_ne_two (m base : JSNum) (results : Nat → Bool) :
    ∀ fuel attempt t, loopGo m base results fuel attempt = some t → t.exit ≠ 2 := by
  intro fuel
  induction fuel with
  | zero => intro attempt t h; simp [loopGo] at h
  | succ fuel ih =>
    intro attempt t h
    rw [loopGo] at h
    by_cases hle : jsLeNat attempt m
    · rw [if_pos hle] at h
      by_cases hr : results attempt
      · rw [if_pos hr] at h
        simp only [Option.some.injEq] at h
        subst h
        simp
      · rw [if_neg hr] at h
        by_cases hlt : jsLtNat attempt m
        · rw [if_pos hlt] at h
          cases hrec : loopGo m base results fuel (attempt + 1) with
          | none => rw [hrec] at h; simp at h
          | some t' =>
            rw [hrec] at h
            simp only [Option.some.injEq] at h
            subst h
            simpa using ih (attempt + 1) t' hrec
        · rw [if_neg hlt] at h
          simp only [Option.some.injEq] at h
          subst h
          simp
    · rw [if_neg hle] at h
      simp only [Option.some.injEq] at h
      subst h
      simp

/-- Fuel supplied for an integral attempt budget. -/
theorem fuelFor_natCast (N : ℕ) : fuelFor (JSNum.num N) = N + 2 := by
  simp [fuelFor]

/-- Indexing into `List.range'` with step 1. -/
theorem range'_getElem?_eq (s n i : ℕ) (h : i < n) :
    (List.range' s n)[i]? = some (s + i) := by
  rw [List.getElem?_eq_getElem (by simpa using h)]
  simp [List.getElem_range'_1]

/-- C1: with an integral attempt budget `N ≥ 1` and every `publishOnce` call
failing, the orchestrator performs exactly the attempts `1, …, N` in order and
then calls `process.exit(1)`. -/
theorem c1_all_attempts_then_exit1 (env : Env) (conv : String → JSNum)
    (results : Nat → Bool) (N : ℕ) (hN : 0 < N)
    (hmax : maxAttemptsOf env conv = JSNum.num N)
    (hhost : truthy env.MQTT_HOST = true)
    (hres : ∀ k, results k = false) :
    ∃ t, sendMqtt env conv results = some t ∧
      t.attempts = List.range' 1 N ∧ t.attempts.length = N ∧
      t.exit = 1 ∧ t.exitedExplicitly = true := by
  have hloop := loopGo_all_fail N (baseDelayMsOf env conv) results hres
    (N + 2) 1 le_rfl hN (by omega)
  unfold sendMqtt runLoop
  rw [if_pos hhost, hmax, fuelFor_natCast, hloop]
  refine ⟨_, rfl, ?_, ?_, rfl, rfl⟩
  · simp
  · simp

/-- C1 witness: budget 4 (the default), all attempts failing. -/
theorem c1_witness :
    0 < 4 ∧ ∃ t, sendMqtt envHostOnly convNan allFail = some t ∧
      t.attempts = List.range' 1 4 ∧ t.attempts.length = 4 ∧
      t.exit = 1 ∧ t.exitedExplicitly = true :=
  ⟨by decide,
   c1_all_attempts_then_exit1 envHostOnly convNan allFail 4 (by decide)
     (by decide) (by decide) (fun _ => rfl)⟩

/-- C2: with an integral attempt budget `N`, if attempts `1, …, m-1` fail and
attempt `m ≤ N` succeeds, exactly the attempts `1, …, m` are performed (no
later attempt starts) and the process exits explicitly with code 0. -/
theorem c2_success_stops_retrying (env : Env) (conv : String → JSNum)
    (results : Nat → Bool) (N m : ℕ) (hm1 : 1 ≤ m) (hmN : m ≤ N)
    (hmax : maxAttemptsOf env conv = JSNum.num N)
    (hhost : truthy env.MQTT_HOST = true)
    (hfail : ∀ k, k < m → results k = false)
    (hsucc : results m = true) :
    ∃ t, sendMqtt env conv results = some t ∧
      t.attempts = List.range' 1 m ∧
      (∀ j ∈ t.attempts, j ≤ m) ∧
      t.exit = 0 ∧ t.exitedExplicitly = true := by
  have hloop := loopGo_first_success N m (baseDelayMsOf env conv) results hsucc hfail hmN
    (N + 2) 1 le_rfl hm1 (by omega)
  unfold sendMqtt runLoop
  rw [if_pos hhost, hmax, fuelFor_natCast, hloop]
  refine ⟨_, rfl, ?_, ?_, rfl, rfl⟩
  · simp
  · intro j hj
    simp only [Nat.add_sub_cancel] at hj
    rw [List.mem_range'] at hj
    omega

/-- C2 witness: budget 4, first attempt fails, second succeeds. -/
theorem c2_witness :
    1 ≤ 2 ∧ ∃ t, sendMqtt envHostOnly convNan succAtTwo = some t ∧
      t.attempts = List.range' 1 2 ∧
      (∀ j ∈ t.attempts, j ≤ 2) ∧
      t.exit = 0 ∧ t.exitedExplicitly = true :=
  ⟨by decide,
   c2_success_stops_retrying envHostOnly convNan succAtTwo 4 2 (by decide) (by decide)
     (by decide) (by decide) (by decide) (by decide)⟩

/-- C3: with an integral attempt budget `N ≥ 1`, a finite base delay `b`, and
every attempt failing, exactly `N - 1` backoff sleeps are requested (none
after the final attempt); the one before attempt `k` (`2 ≤ k ≤ N`) is
`b * 2 ^ (k - 2)` ms, so the one after the first failure is exactly `b`. -/
theorem c3_exponential_backoff (env : Env) (conv : String → JSNum)
    (results : Nat → Bool) (N : ℕ) (b : ℚ) (hN : 0 < N)
    (hmax : maxAttemptsOf env conv = JSNum.num N)
    (hbase : baseDelayMsOf env conv = JSNum.num b)
    (hhost : truthy env.MQTT_HOST = true)
    (hres : ∀ k, results k = false) :
    ∃ t, sendMqtt env conv results = some t ∧
      t.delays.length = N - 1 ∧
      (∀ k, 2 ≤ k → k ≤ N → t.delays[k - 2]? = some (JSNum.num (b * 2 ^ (k - 2)))) ∧
      (2 ≤ N → t.delays[0]? = some (JSNum.num b)) := by
  have hloop := loopGo_all_fail N (baseDelayMsOf env conv) results hres
    (N + 2) 1 le_rfl hN (by omega)
  unfold sendMqtt runLoop
  rw [if_pos hhost, hmax, fuelFor_natCast, hloop]
  have hget : ∀ k, 2 ≤ k → k ≤ N →
      ((List.range' 1 (N - 1)).map (backoff (baseDelayMsOf env conv)))[k - 2]? =
        some (JSNum.num (b * 2 ^ (k - 2))) := by
    intro k hk2 hkN
    rw [List.getElem?_map, range'_getElem?_eq 1 (N - 1) (k - 2) (by omega)]
    simp only [Option.map_some']
    rw [backoff, hbase]
    have e : 1 + (k - 2) - 1 = k - 2 := by omega
    rw [e]
    rfl
  refine ⟨_, rfl, ?_, ?_, ?_⟩
  · simp
  · intro k hk2 hkN
    simpa using hget k hk2 hkN
  · intro h2N
    simpa using hget 2 le_rfl h2N

/-- C3 witness: budget 4, default base delay 3000 ms, all attempts failing. -/
theorem c3_witness :
    0 < 4 ∧ ∃ t, sendMqtt envHostOnly convNan allFail = some t ∧
      t.delays.length = 4 - 1 ∧
      (∀ k, 2 ≤ k → k ≤ 4 → t.delays[k - 2]? = some (JSNum.num (3000 * 2 ^ (k - 2)))) ∧
      (2 ≤ 4 → t.delays[0]? = some (JSNum.num 3000)) :=
  ⟨by decide,
   c3_exponential_backoff envHostOnly convNan allFail 4 3000 (by decide)
     (by decide) (by decide) (by decide) (fun _ => rfl)⟩

/-- C10: with `MQTT_HOST` truthy but `MQTT_ATTEMPTS` a non-empty string whose
`Number` conversion is `0` or `NaN`, the loop body never runs: no connection
is made, and the process falls through and exits naturally with code 0. -/
theorem c10_zero_or_nan_budget (env : Env) (conv : String → JSNum)
    (results : Nat → Bool)
    (hhost : truthy env.MQTT_HOST = true)
    (hset : truthy env.MQTT_ATTEMPTS = true)
    (hconv : conv (env.MQTT_ATTEMPTS.getD "") = JSNum.num 0 ∨
             conv (env.MQTT_ATTEMPTS.getD "") = JSNum.nan) :
    sendMqtt env conv results = some ⟨0, [], [], 0, false⟩ := by
  have hmax : maxAttemptsOf env conv = conv (env.MQTT_ATTEMPTS.getD "") := by
    simp [maxAttemptsOf, numFromEnv, hset]
  unfold sendMqtt runLoop
  rw [if_pos hhost, hmax]
  rcases hconv with h | h <;> rw [h]
  · have hle : jsLeNat 1 (JSNum.num 0) = false := by decide
    rw [fuelFor, loopGo, hle]
    rfl
  · have hle : jsLeNat 1 JSNum.nan = false := rfl
    rw [fuelFor, loopGo, hle]
    rfl

/-- C10 witness: `MQTT_ATTEMPTS="0"` under a conversion sending it to 0. -/
theorem c10_witness :
    sendMqtt envAttemptsZero convZero allFail = some ⟨0, [], [], 0, false⟩ :=
  c10_zero_or_nan_budget envAttemptsZero convZero allFail (by decide) (by decide)
    (Or.inl rfl)

/-- C4 counterexample: `MQTT_HOST` set to the empty string is present in the
environment, yet the guard `if (!TARGET)` exits with code 2 — so exit code 2
is not produced only when the variable is absent. -/
theorem c4_counterexample :
    envHostEmpty.MQTT_HOST ≠ none ∧
    sendMqtt envHostEmpty convNan allFail = some ⟨0, [], [], 2, true⟩ := by
  constructor
  · decide
  · rfl

/-- C4 (amended): if `MQTT_HOST` is absent or empty (JS-falsy), the process
exits with code 2 before any `mqtt.connect` call; and exit code 2 is produced
exactly in this falsy-`MQTT_HOST` case. -/
theorem c4_exit2_iff_host_falsy (env : Env) (conv : String → JSNum)
    (results : Nat → Bool) :
    (truthy env.MQTT_HOST = false →
      sendMqtt env conv results = some ⟨0, [], [], 2, true⟩) ∧
    (∀ t, sendMqtt env conv results = some t →
      (t.exit = 2 ↔ truthy env.MQTT_HOST = false)) := by
  constructor
  · intro h
    unfold sendMqtt
    rw [h]
    rfl
  · intro t ht
    by_cases h : truthy env.MQTT_HOST
    · unfold sendMqtt at ht
      rw [if_pos h] at ht
      unfold runLoop at ht
      cases hrec : loopGo (maxAttemptsOf env conv) (baseDelayMsOf env conv) results
          (fuelFor (maxAttemptsOf env conv)) 1 with
      | none => rw [hrec] at ht; simp at ht
      | some t' =>
        rw [hrec] at ht
        simp only [Option.map_some', Option.some.injEq] at ht
        subst ht
        have := loopGo_exit_ne_two (maxAttemptsOf env conv) (baseDelayMsOf env conv)
          results (fuelFor (maxAttemptsOf env conv)) 1 t' hrec
        simp [h, this]
    · unfold sendMqtt at ht
      rw [if_neg h] at ht
      simp only [Option.some.injEq] at ht
      subst ht
      simp [h]

/-- C4 witness: an entirely empty environment exits with code 2 and performs
no connections. -/
theorem c4_witness :
    truthy envAllAbsent.MQTT_HOST = false ∧
    sendMqtt envAllAbsent convNan allFail = some ⟨0, [], [], 2, true⟩ :=
  ⟨by decide, (c4_exit2_iff_host_falsy envAllAbsent convNan allFail).1 (by decide)⟩

/-- C9: when the corresponding environment variables are absent, the attempt
budget defaults to 4, the base backoff delay to 3000 ms, the connect timeout
to 15000 ms, and the payload to `"ci-test"`. -/
theorem c9_defaults (env : Env) (conv : String → JSNum)
    (h1 : env.MQTT_ATTEMPTS = none)
    (h2 : env.MQTT_RETRY_DELAY_MS = none)
    (h3 : env.MQTT_CONNECT_TIMEOUT_MS = none)
    (h4 : env.RELEASE_TAG = none) :
    maxAttemptsOf env conv = JSNum.num 4 ∧
    baseDelayMsOf env conv = JSNum.num 3000 ∧
    connectTimeoutOf env conv = JSNum.num 15000 ∧
    payloadOf env = "ci-test" := by
  refine ⟨?_, ?_, ?_, ?_⟩
  · simp [maxAttemptsOf, numFromEnv, h1, truthy]
  · simp [baseDelayMsOf, numFromEnv, h2, truthy]
  · simp [connectTimeoutOf, numFromEnv, h3, truthy]
  · simp [payloadOf, h4, truthy]

/-- C9 witness: the defaults on an environment with only `MQTT_HOST` set. -/
theorem c9_witness :
    maxAttemptsOf envHostOnly convNan = JSNum.num 4 ∧
    baseDelayMsOf envHostOnly convNan = JSNum.num 3000 ∧
    connectTimeoutOf envHostOnly convNan = JSNum.num 15000 ∧
    payloadOf envHostOnly = "ci-test" :=
  c9_defaults envHostOnly convNan rfl rfl rfl rfl

/-- C6 counterexample: with `CF_ACCESS_CLIENT_ID` present but empty and
`CF_ACCESS_CLIENT_SECRET` present and non-empty, both variables are present
in the environment yet neither access-control header is attached — so
"attached iff both present" fails. -/
theorem c6_counterexample :
    envCfIdEmpty.CF_ACCESS_CLIENT_ID ≠ none ∧
    envCfIdEmpty.CF_ACCESS_CLIENT_SECRET ≠ none ∧
    headerAttached envCfIdEmpty "CF-Access-Client-Id" = false ∧
    headerAttached envCfIdEmpty "CF-Access-Client-Secret" = false := by
  refine ⟨by decide, by decide, ?_, ?_⟩ <;> decide

/-- C6 (amended): the `CF-Access-Client-Id` and `CF-Access-Client-Secret`
headers are attached to the WebSocket transport request if and only if both
`CF_ACCESS_CLIENT_ID` and `CF_ACCESS_CLIENT_SECRET` are present and non-empty
(JS-truthy); in every other combination — including exactly one of the two
set — neither header is sent, and no error is raised (the headers are simply
omitted). -/
theorem c6_headers_iff_both_truthy (env : Env) :
    headerAttached env "CF-Access-Client-Id" =
      (truthy env.CF_ACCESS_CLIENT_ID && truthy env.CF_ACCESS_CLIENT_SECRET) ∧
    headerAttached env "CF-Access-Client-Secret" =
      (truthy env.CF_ACCESS_CLIENT_ID && truthy env.CF_ACCESS_CLIENT_SECRET) := by
  cases h : (truthy env.CF_ACCESS_CLIENT_ID && truthy env.CF_ACCESS_CLIENT_SECRET) <;>
    constructor <;>
    simp [headerAttached, wsHeaders, h]

/-! ### Lemmas about the `publishOnce` machine -/

/-- A `resolve`/`reject` call keeps the promise value equal to the first
recorded settling call. -/
theorem settle_head (s : AttemptState) (r : SettleResult)
    (h : s.settled = s.settleAttempts.head?) :
    (settle s r).settled = (settle s r).settleAttempts.head? := by
  unfold settle
  cases hl : s.settleAttempts with
  | nil => rw [hl] at h; simp only [List.head?_nil] at h; simp [h, hl]
  | cons a l => rw [hl] at h; simp only [List.head?_cons] at h; simp [h, hl]

/-- Every event handler of `publishOnce` preserves the machine invariant. -/
theorem step_preserves_invariant (cfg : AttemptCfg) (s : AttemptState)
    (e : AttemptEvent) (hs : AttemptInvariant cfg s) :
    AttemptInvariant cfg (step cfg s e) := by
  unfold AttemptInvariant at hs ⊢
  obtain ⟨h1, h2, h3, h4, h5, h6, h7, h8, h9, h10⟩ := hs
  cases e with
  | timerFire =>
    by_cases hg : s.timerActive = true
    · simp only [step]
      rw [if_pos hg]
      have hnoto : SettleResult.timeoutErr ∉ s.settleAttempts := fun hmem => by
        rw [h4 hmem] at hg; exact Bool.false_ne_true hg
      have hnotr : SettleResult.transportErr ∉ s.settleAttempts := fun hmem => by
        rw [h6 hmem] at hg; exact Bool.false_ne_true hg
      refine ⟨settle_head _ _ h1, fun _ => rfl, fun _ => rfl, fun _ => rfl,
        ?_, fun _ => rfl, ?_, fun _ => rfl, fun _ => rfl, h10⟩
      · intro _ hmem
        simp only [settle, List.mem_append, List.mem_singleton] at hmem
        rcases hmem with hmem | hmem
        · exact hnotr hmem
        · exact SettleResult.noConfusion hmem
      · simp only [settle, List.count_append]
        rw [List.count_eq_zero.mpr hnoto]
        simp
    · simp only [step]
      rw [if_neg hg]
      exact ⟨h1, h2, h3, h4, h5, h6, h7, h8, h9, h10⟩
  | connectEv =>
    by_cases hg : s.timedOut = true
    · simp only [step]
      rw [if_pos hg]
      exact ⟨h1, h2, h3, h4, h5, h6, h7, h8, h9, h10⟩
    · simp only [step]
      rw [if_neg hg]
      refine ⟨h1, h2, fun _ => rfl, fun _ => rfl, h5, fun _ => rfl, h7, h8, h9, ?_⟩
      intro p hp
      simp only [List.mem_append, List.mem_singleton] at hp
      rcases hp with hp | hp
      · exact h10 p hp
      · exact hp
  | errorEv =>
    by_cases hg : s.timedOut = true
    · simp only [step]
      rw [if_pos hg]
      exact ⟨h1, h2, h3, h4, h5, h6, h7, h8, h9, h10⟩
    · simp only [step]
      rw [if_neg hg]
      refine ⟨settle_head _ _ h1, ?_, fun _ => rfl, fun _ => rfl, ?_, fun _ => rfl,
        ?_, fun _ => rfl, fun _ => rfl, h10⟩
      · intro hmem
        simp only [settle, List.mem_append, List.mem_singleton] at hmem
        rcases hmem with hmem | hmem
        · exact absurd (h2 hmem) hg
        · exact SettleResult.noConfusion hmem
      · intro hto
        exact absurd hto hg
      · simp only [settle, List.count_append]
        have : List.count SettleResult.timeoutErr [SettleResult.transportErr] = 0 := by decide
        rw [this]
        simpa using h7
  | pubAck isErr =>
    by_cases hg : s.pubPending = true
    · simp only [step]
      rw [if_pos hg]
      cases isErr with
      | true =>
        rw [if_pos rfl]
        refine ⟨settle_head _ _ h1, ?_, h3, ?_, ?_, ?_, ?_, fun _ => rfl,
          fun _ => rfl, h10⟩
        · intro hmem
          simp only [settle, List.mem_append, List.mem_singleton] at hmem
          rcases hmem with hmem | hmem
          · exact h2 hmem
          · exact SettleResult.noConfusion hmem
        · intro hmem
          simp only [settle, List.mem_append, List.mem_singleton] at hmem
          rcases hmem with hmem | hmem
          · exact h4 hmem
          · exact SettleResult.noConfusion hmem
        · intro hto hmem
          simp only [settle, List.mem_append, List.mem_singleton] at hmem
          rcases hmem with hmem | hmem
          · exact h5 hto hmem
          · exact SettleResult.noConfusion hmem
        · intro hmem
          simp only [settle, List.mem_append, List.mem_singleton] at hmem
          rcases hmem with hmem | hmem
          · exact h6 hmem
          · exact SettleResult.noConfusion hmem
        · simp only [settle, List.count_append]
          have : List.count SettleResult.timeoutErr [SettleResult.publishErr] = 0 := by decide
          rw [this]
          simpa using h7
      | false =>
        rw [if_neg Bool.false_ne_true]
        exact ⟨h1, h2, h3, h4, h5, h6, h7, fun _ => rfl, fun _ => rfl, h10⟩
    · simp only [step]
      rw [if_neg hg]
      exact ⟨h1, h2, h3, h4, h5, h6, h7, h8, h9, h10⟩
  | closeDone =>
    by_cases hg : s.closeResolvePending = true
    · simp only [step]
      rw [if_pos hg]
      refine ⟨settle_head _ _ h1, ?_, h3, ?_, ?_, ?_, ?_, fun _ => h9 hg,
        ?_, h10⟩
      · intro hmem
        simp only [settle, List.mem_append, List.mem_singleton] at hmem
        rcases hmem with hmem | hmem
        · exact h2 hmem
        · exact SettleResult.noConfusion hmem
      · intro hmem
        simp only [settle, List.mem_append, List.mem_singleton] at hmem
        rcases hmem with hmem | hmem
        · exact h4 hmem
        · exact SettleResult.noConfusion hmem
      · intro hto hmem
        simp only [settle, List.mem_append, List.mem_singleton] at hmem
        rcases hmem with hmem | hmem
        · exact h5 hto hmem
        · exact SettleResult.noConfusion hmem
      · intro hmem
        simp only [settle, List.mem_append, List.mem_singleton] at hmem
        rcases hmem with hmem | hmem
        · exact h6 hmem
        · exact SettleResult.noConfusion hmem
      · simp only [settle, List.count_append]
        have : List.count SettleResult.timeoutErr [SettleResult.ok] = 0 := by decide
        rw [this]
        simpa using h7
      · intro hc
        exact Bool.noConfusion hc
    · simp only [step]
      rw [if_neg hg]
      exact ⟨h1, h2, h3, h4, h5, h6, h7, h8, h9, h10⟩

/-- Folding the handlers over any event list preserves the invariant. -/
theorem foldl_step_invariant (cfg : AttemptCfg) :
    ∀ (evs : List AttemptEvent) (s : AttemptState), AttemptInvariant cfg s →
      AttemptInvariant cfg (evs.foldl (step cfg) s) := by
  intro evs
  induction evs with
  | nil => intro s hs; exact hs
  | cons e es ih =>
    intro s hs
    exact ih (step cfg s e) (step_preserves_invariant cfg s e hs)

/-- The machine invariant holds after any sequence of events. -/
theorem runAttempt_invariant (cfg : AttemptCfg) (evs : List AttemptEvent) :
    AttemptInvariant cfg (runAttempt cfg evs) := by
  have hinit : AttemptInvariant cfg initAttempt := by
    unfold AttemptInvariant initAttempt
    refine ⟨rfl, ?_, ?_, ?_, ?_, ?_, ?_, ?_, ?_, ?_⟩ <;> simp
  rw [runAttempt]
  exact foldl_step_invariant cfg evs initAttempt hinit

/-- C5: over any sequence of asynchronous events in one attempt, the promise
value is decided by the first `resolve`/`reject` call and every later
settling call is ignored; the timeout path settles at most once; the timeout
path and the transport-error path are mutually exclusive; and the timer is
armed for exactly `connectTimeout + 5000` ms. -/
theorem c5_one_shot_settlement (cfg : AttemptCfg) (evs : List AttemptEvent) (ct : ℚ) :
    (runAttempt cfg evs).settled = (runAttempt cfg evs).settleAttempts.head? ∧
    (runAttempt cfg evs).settleAttempts.count SettleResult.timeoutErr ≤ 1 ∧
    ¬(SettleResult.timeoutErr ∈ (runAttempt cfg evs).settleAttempts ∧
      SettleResult.transportErr ∈ (runAttempt cfg evs).settleAttempts) ∧
    timerDelayMs (JSNum.num ct) = JSNum.num (ct + 5000) := by
  obtain ⟨h1, h2, _, _, h5, _, h7, _, _, _⟩ := runAttempt_invariant cfg evs
  refine ⟨h1, h7, ?_, rfl⟩
  rintro ⟨hto, htr⟩
  exact h5 (h2 hto) htr

/-- C7: every publish of an attempt carries the configured topic and payload
at QoS 1; a publish acknowledgement error rejects the attempt after calling
`client.end`; a successful acknowledgement does not by itself resolve the
attempt — the resolution to success happens only when the close completes. -/
theorem c7_publish_qos1_and_close (cfg : AttemptCfg) (evs : List AttemptEvent)
    (s : AttemptState) (p : PubRecord) :
    (p ∈ (runAttempt cfg evs).pubs →
      p.topic = cfg.topic ∧ p.payload = cfg.payload ∧ p.qos = 1) ∧
    (s.pubPending = true →
      (step cfg s (AttemptEvent.pubAck true)).settleAttempts =
          s.settleAttempts ++ [SettleResult.publishErr] ∧
      (step cfg s (AttemptEvent.pubAck true)).endCalled = true) ∧
    ((step cfg s (AttemptEvent.pubAck false)).settled = s.settled) ∧
    (s.closeResolvePending = true → s.settled = none →
      (step cfg s AttemptEvent.closeDone).settled = some SettleResult.ok) := by
  obtain ⟨_, _, _, _, _, _, _, _, _, h10⟩ := runAttempt_invariant cfg evs
  refine ⟨?_, ?_, ?_, ?_⟩
  · intro hp
    rw [h10 p hp]
    exact ⟨rfl, rfl, rfl⟩
  · intro hpp
    simp only [step]
    rw [if_pos hpp]
    simp [settle]
  · by_cases hpp : s.pubPending = true
    · simp [step, hpp]
    · simp [step, hpp]
  · intro hcp hnone
    simp [step, hcp, settle, hnone]

/-- C7 witness: the publish of a connect event, an acknowledgement error in a
publish-pending state, a successful acknowledgement (which leaves the promise
pending), and the close completion (which resolves it). -/
theorem c7_witness :
    ((⟨some "topic", "payload", 1⟩ : PubRecord).topic = cfgW.topic ∧
     (⟨some "topic", "payload", 1⟩ : PubRecord).payload = cfgW.payload ∧
     (⟨some "topic", "payload", 1⟩ : PubRecord).qos = 1) ∧
    ((step cfgW statePubPending (AttemptEvent.pubAck true)).settleAttempts =
        statePubPending.settleAttempts ++ [SettleResult.publishErr] ∧
     (step cfgW statePubPending (AttemptEvent.pubAck true)).endCalled = true) ∧
    ((step cfgW statePubPending (AttemptEvent.pubAck false)).settled =
      statePubPending.settled) ∧
    ((step cfgW stateClosePending AttemptEvent.closeDone).settled =
      some SettleResult.ok) := by
  have h := c7_publish_qos1_and_close cfgW [AttemptEvent.connectEv] statePubPending
    (⟨some "topic", "payload", 1⟩ : PubRecord)
  have h2 := c7_publish_qos1_and_close cfgW [AttemptEvent.connectEv] stateClosePending
    (⟨some "topic", "payload", 1⟩ : PubRecord)
  exact ⟨h.1 (by decide), h.2.1 rfl, h.2.2.1, h2.2.2.2 rfl rfl⟩

/-- C8: on every path on which the attempt settles — success, publish error,
transport error or timeout — `client.end` has been invoked by the time it
settles: a settled attempt never leaves its connection open. -/
theorem c8_end_called_when_settled (cfg : AttemptCfg) (evs : List AttemptEvent)
    (h : (runAttempt cfg evs).settled.isSome = true) :
    (runAttempt cfg evs).endCalled = true := by
  obtain ⟨h1, _, _, _, _, _, _, h8, _, _⟩ := runAttempt_invariant cfg evs
  apply h8
  intro hnil
  rw [h1, hnil] at h
  simp at h

/-- C8 witness: a transport error settles the attempt with `client.end`
invoked. -/
theorem c8_witness :
    (runAttempt cfgW [AttemptEvent.errorEv]).settled.isSome = true ∧
    (runAttempt cfgW [AttemptEvent.errorEv]).endCalled = true :=
  ⟨by decide, c8_end_called_when_settled cfgW [AttemptEvent.errorEv] (by decide)⟩

end SendMqtt
